import Mathlib

/-!
Verification of the errlog failure-context resolver.

This file gives a shallow embedding, in Lean 4, of the errlog Go package
(github.com/snwfdhmp/errlog).  The repository carries several historical
variants of the same functions; the embedding follows the current variant
(the logger embedded in README.md, whose `Debug` handles `Mode`, degrades
on unreadable files, and uses `parseStackTrace`), and additionally embeds
the `PrintSource` variant of logger.go lines 150-181, which is the one the
rendering claims cite.  Go slice/index accesses that can panic are made
explicit: every operation that can panic returns `Except String α`, with
`Except.error` standing for the Go runtime panic.  Machine integers are
modelled as `Int` (no arithmetic here ever approaches overflow), strings
as Lean `String` over their character lists (the source files involved are
ASCII, so Go's byte indexing and character indexing agree).  The printer
collaborator is modelled by accumulating one structured `Output` value per
`Printf` call; the `PrintFunc` field of the configuration is modelled by a
presence flag, since only its nil-ness is ever inspected by the code.
Loops are embedded with an explicit fuel argument equal to the exact
iteration bound of the corresponding Go loop, so all definitions compute
by `rfl`/`decide`.
-/

set_option autoImplicit false

namespace Errlog

/-! ### Character and string helpers mirroring the Go string operations -/

/-- Left brace character, written via its escape. -/
def lbrace : Char := '\x7b'

/-- Cutset of `strings.Trim(s, " \n\t")` used by the blank-line checks. -/
def isCutsetChar (c : Char) : Bool := c = ' ' || c = '\n' || c = '\t'

/-- A line is blank when `strings.Trim(line, " \n\t") == ""`, i.e. every
character is in the cutset. -/
def isBlankStr (s : String) : Bool := s.toList.all isCutsetChar

/-- Whitespace class `\s` of the Go regexp package: `[\t\n\f\r ]`. -/
def isWS (c : Char) : Bool :=
  c = ' ' || c = '\t' || c = '\n' || c = '\x0c' || c = '\r'

/-- Character class `[a-zA-Z0-9]`. -/
def isAlnum (c : Char) : Bool :=
  ('a' ≤ c && c ≤ 'z') || ('A' ≤ c && c ≤ 'Z') || ('0' ≤ c && c ≤ '9')

/-- Character class `[a-zA-Z0-9\._]` of `regexpFindVarDefinition`. -/
def isWordDot (c : Char) : Bool := isAlnum c || c = '.' || c = '_'

/-- Go `lines[i]` on a `[]string`: panics (here: `Except.error`) when the
index is out of range. -/
def gidx (xs : List String) (i : Int) : Except String String :=
  if h : 0 ≤ i ∧ i < (xs.length : Int) then
    .ok (xs.get ⟨i.toNat, by omega⟩)
  else .error "index out of range"

/-- Go `xs[:k]` on a `[]string`: panics unless `0 ≤ k ≤ len(xs)`. -/
def goTake (xs : List String) (k : Int) : Except String (List String) :=
  if 0 ≤ k ∧ k ≤ (xs.length : Int) then .ok (xs.take k.toNat)
  else .error "slice bounds out of range"

/-- Go `s[a:b]` on a string: panics unless `0 ≤ a ≤ b ≤ len(s)`. -/
def goSubstr (s : String) (a b : Int) : Except String String :=
  if 0 ≤ a ∧ a ≤ b ∧ b ≤ (s.length : Int) then
    .ok (String.mk ((s.toList.drop a.toNat).take (b - a).toNat))
  else .error "slice bounds out of range"

/-- String prefix of the first `n` characters (used to state rendering
results; `strTakeI s n = s[:n]` for in-range `n`). -/
def strTakeI (s : String) (n : Int) : String := String.mk (s.toList.take n.toNat)

/-- String suffix from character `n` on (`strDropI s n = s[n:]` for
in-range `n`). -/
def strDropI (s : String) (n : Int) : String := String.mk (s.toList.drop n.toNat)

/-- Splitting a character list at every newline; the result always has at
least one (possibly empty) piece, like Go's `strings.Split`. -/
def splitLinesChars : List Char → List (List Char)
  | [] => [[]]
  | c :: rest =>
    if c = '\n' then [] :: splitLinesChars rest
    else
      match splitLinesChars rest with
      | [] => [[c]]
      | h :: t => (c :: h) :: t

/-- `strings.Split(content, "\n")`. -/
def splitLines (content : String) : List String :=
  (splitLinesChars content.toList).map String.mk

/-! ### Stack trace parsing

`StackTraceItem` is the parsed frame record of the current variant. -/

/-- StackTraceItem of the current variant: parsed information of one stack
trace entry. -/
structure StackTraceItem where
  callingObject : String
  args : List String
  sourcePathRef : String
  sourceLineRef : Int
  mysteryNumber : Int
  deriving Repr, DecidableEq

/-- getStackTrace of the older variant (unnamed/part_002 lines 33-36):
`regexpParseStack.FindAllString(string(debug.Stack()), -1)[2+deltaDepth:]`.
The input is the list of regexp matches (the raw frame entries); the Go
slice expression panics when `2 + deltaDepth` is negative or exceeds the
number of entries. -/
def getStackTrace (entries : List String) (deltaDepth : Int) : Except String (List String) :=
  if 2 + deltaDepth < 0 ∨ (entries.length : Int) < 2 + deltaDepth then
    .error "slice bounds out of range"
  else .ok (entries.drop (2 + deltaDepth).toNat)

/-- parseStackTrace of the current variant (unnamed/part_003 lines 40-75),
modelled at the frame level.  The raw snapshot of `runtime/debug.Stack()`
splits into `2 + 2*F` lines for `F` frames (one goroutine header line, two
lines per frame, one empty line from the trailing newline).  The code
returns nil when `len(stackArr) < 2*(2+deltaDepth)`, i.e. when
`F < 1 + deltaDepth`; otherwise it joins `stackArr[2*(2+deltaDepth):]` and
scans it with `regexpParseStack`.  Dropping `2*(2+deltaDepth)` lines cuts
into the middle of frame `2 + deltaDepth`, whose dangling second line
cannot match the frame pattern, so the scan yields exactly the frames from
index `2 + deltaDepth` on.  A negative slice index panics (the guard
cannot fire then, since a length is never below a negative bound). -/
def parseStackTrace (frames : List StackTraceItem) (deltaDepth : Int) :
    Except String (List StackTraceItem) :=
  if 2 + 2 * (frames.length : Int) < 2 * (2 + deltaDepth) then .ok []
  else if 2 * (2 + deltaDepth) < 0 then .error "slice bounds out of range"
  else .ok (frames.drop (2 + deltaDepth).toNat)

/-! ### Configuration, doctor, logger state -/

/-- Mode constant of the current variant: disabled mode (NO-OP). -/
def ModeDisabled : Int := 1

/-- Mode constant of the current variant: enabled mode (Print). -/
def ModeEnabled : Int := 2

/-- Config of the current variant.  `printFuncSet` models whether the
`PrintFunc` field is non-nil (the function itself is the printer
collaborator and is only ever tested against nil and called). -/
structure Config where
  printFuncSet : Bool
  linesBefore : Int
  linesAfter : Int
  printStack : Bool
  printSource : Bool
  printError : Bool
  exitOnDebugSuccess : Bool
  disableStackIndentation : Bool
  mode : Int
  deriving Repr, DecidableEq

/-- logger struct: one configuration and the one-shot stack depth
overload. -/
structure LoggerState where
  config : Config
  stackDepthOverload : Int
  deriving Repr, DecidableEq

/-- Doctor (logger.go lines 183-208): installs the default print function
when `PrintFunc` is nil and clamps negative margins to 0, reporting
whether anything needed fixing. -/
def doctor (c : Config) : Bool × Config :=
  let n1 := !c.printFuncSet
  let c1 := if c.printFuncSet then c else { c with printFuncSet := true }
  let n2 := n1 || decide (c1.linesBefore < 0)
  let c2 := if c1.linesBefore < 0 then { c1 with linesBefore := 0 } else c1
  let n3 := n2 || decide (c2.linesAfter < 0)
  let c3 := if c2.linesAfter < 0 then { c2 with linesAfter := 0 } else c2
  (n3, c3)

/-- NewLogger (logger.go lines 52-62): builds the logger with overload 0
and runs Doctor on it before returning. -/
def newLogger (cfg : Config) : LoggerState :=
  ⟨(doctor cfg).2, 0⟩

/-! ### Printed output

One constructor per `Printf` call site of the pipeline; the arguments are
the data interpolated into the format string. -/

/-- Output models one call to the printer collaborator. -/
inductive Output where
  /-- "Error in %s: %s" (calling object, yellow error text). -/
  | errorIn (callingObject msg : String)
  /-- "Error: %s" on the empty-stack degraded path. -/
  | errorPlain (msg : String)
  /-- The empty-stack notice asking to open an issue. -/
  | emptyStackNotice
  /-- "errlog: cannot read file '%s': ..." degraded message of DebugSource. -/
  | readFail (path : String)
  /-- "line %d of %s:%d". -/
  | lineRef (n : Int) (path : String) (m : Int)
  /-- "error in %s (failing line not found, stack trace says func call is at line %d)". -/
  | lineRefMissing (path : String) (n : Int)
  /-- Red "%d: %s" function header line. -/
  | funcHeader (n : Int) (text : String)
  /-- Yellow "..." elision marker. -/
  | ellipsis
  /-- "%d: %s", a plain (yellow) source line with its 1-based number. -/
  | srcLine (n : Int) (text : String)
  /-- "%d: %s%s%s", a source line with a red highlighted span. -/
  | srcLineHl (n : Int) (pre hl post : String)
  /-- "Stack trace:" header. -/
  | stackHeader
  /-- "%s (%s:%d)", one stack frame line. -/
  | frameLine (callingObject path : String) (line : Int)
  deriving Repr, DecidableEq

/-! ### findFuncLine (unnamed/part_003 lines 78-86) -/

/-- regexpFuncLine `^func[\s][a-zA-Z0-9]+[(](.*)[)][\s]*\x7b` as a
character-level matcher: "func", one whitespace, a nonempty alphanumeric
run, then `(`, then somewhere a `)` followed (after optional whitespace)
by a `\x7b`.  The identifier run must be maximal: a shorter run would put
an alphanumeric character where the regexp expects `(`. -/
def closeParenBrace : List Char → Bool
  | [] => false
  | ')' :: rest =>
    (match rest.dropWhile isWS with
     | c :: _ => c = lbrace
     | [] => false) || closeParenBrace rest
  | _ :: rest => closeParenBrace rest

/-- Match of regexpFuncLine against a whole line. -/
def isFuncLine (line : String) : Bool :=
  match line.toList with
  | 'f' :: 'u' :: 'n' :: 'c' :: w :: rest =>
    isWS w &&
      (let ident := rest.takeWhile isAlnum
       let rest2 := rest.dropWhile isAlnum
       !ident.isEmpty &&
         match rest2 with
         | '(' :: rest3 => closeParenBrace rest3
         | _ => false)
  | _ => false

/-- Loop body of findFuncLine: `for i := lineNumber; i > 0; i--`, reading
`lines[i]` (a Go panic when out of range) and returning the first index
whose line matches the function-declaration pattern. -/
def findFuncLineAux (lines : List String) : Nat → Except String Int
  | 0 => .ok (-1)
  | n + 1 =>
    match gidx lines ((n + 1 : Nat) : Int) with
    | .error e => .error e
    | .ok s => if isFuncLine s then .ok ((n + 1 : Nat) : Int) else findFuncLineAux lines n

/-- findFuncLine: scans backward from `lineNumber` (index 0 excluded) for
a function-declaration line; -1 when none is found. -/
def findFuncLine (lines : List String) (lineNumber : Int) : Except String Int :=
  if lineNumber ≤ 0 then .ok (-1) else findFuncLineAux lines lineNumber.toNat

/-! ### findFailingLine (unnamed/part_003 lines 89-149) -/

/-- First occurrence of `pat` in a character list; returns the suffix
after the occurrence. -/
def findAfter (pat : List Char) : List Char → Option (List Char)
  | [] => none
  | c :: rest =>
    if pat.isPrefixOf (c :: rest) then some (List.drop pat.length (c :: rest))
    else findAfter pat rest

/-- Index of the last `/` or `)` in a character list. -/
def lastCloseIdx (cs : List Char) : Option Nat :=
  match List.findIdx? (fun c => c = '/' || c = ')') cs.reverse with
  | none => none
  | some k => some (cs.length - 1 - k)

/-- regexpParseDebugLineParseVarName `[\.]Debug[\(](.*)[/)]` as a
submatch extractor: the group is everything between the first `.Debug(`
and the last `/` or `)` after it (the `.*` is greedy).  When the first
occurrence has no closing character after it, later occurrences cannot
have one either, so the whole match fails. -/
def extractVarName (line : String) : Option String :=
  match findAfter ".Debug(".toList line.toList with
  | none => none
  | some rest =>
    match lastCloseIdx rest with
    | none => none
    | some k => some (String.mk (rest.take k))

/-- Match of `varName[\s:]*={1}([\s]*[a-zA-Z0-9\._]+)` anchored at the
head of `cs`: the literal variable name, a maximal run of
whitespace/colons, one `=`, then the group (maximal whitespace then a
nonempty maximal word run).  Returns the end offset of the full match.
`=` is outside both character classes, so greedy backtracking never
helps and the maximal-run reading is exact.  (Variable names are
alphanumeric in the claims; regexp metacharacters inside `varName` are
not modelled.) -/
def varDefMatchAt (v : List Char) (cs : List Char) : Option Nat :=
  if v.isPrefixOf cs then
    let r1 := cs.drop v.length
    let wsRun := r1.takeWhile (fun c => isWS c || c = ':')
    let r2 := r1.drop wsRun.length
    match r2 with
    | '=' :: r3 =>
      let ws2 := r3.takeWhile isWS
      let r4 := r3.drop ws2.length
      let word := r4.takeWhile isWordDot
      if word.isEmpty then none
      else some (v.length + wsRun.length + 1 + ws2.length + word.length)
    | _ => none
  else none

/-- Leftmost match of the variable-definition pattern: scans positions
left to right; returns `(index[0], index[1])` = (match start, match end)
as `FindStringSubmatchIndex` does. -/
def findVarDefAux (v : List Char) : List Char → Nat → Option (Nat × Nat)
  | [], _ => none
  | cs@(_ :: rest), pos =>
    match varDefMatchAt v cs with
    | some e => some (pos, pos + e)
    | none => findVarDefAux v rest (pos + 1)

/-- FindStringSubmatchIndex of `regexpFindVarDefinition varName` on a
line, returning match start and end as Int. -/
def findVarDef (v : List Char) (line : String) : Option (Int × Int) :=
  (findVarDefAux v line.toList 0).map (fun p => ((p.1 : Int), (p.2 : Int)))

/-- Bracket walk of findFailingLine: from offset `j`, count `(` and `)`
and stop at the first position where the counts agree; `none` when the
line ends first. -/
def walkAux : List Char → Int → Int → Int → Option Int
  | [], _, _, _ => none
  | c :: rest, j, o, cl =>
    let o2 := if c = '(' then o + 1 else o
    let cl2 := if c = ')' then cl + 1 else cl
    if o2 = cl2 then some j else walkAux rest (j + 1) o2 cl2

/-- Comment check `len(lines[i]) >= 2 && lines[i][:2] == "//"`. -/
def isCommentStart (s : String) : Bool :=
  match s.toList with
  | '/' :: '/' :: _ => true
  | _ => false

/-- Loop of findFailingLine: `for i := debugLine; i >= funcLine && i > 0;
i--`, skipping blank and comment lines, searching each line for the
variable definition, and walking brackets from the match end.  The fuel
is the exact iteration bound `debugLine + 1` (the loop stops at `i = 0`).
When the bracket walk never balances, `columnEnd` keeps its zero value
and is corrected to the end of the line. -/
def fflLoop (lines : List String) (v : List Char) (funcLine : Int) :
    Nat → Int → Except String (Int × Int × Int)
  | 0, _ => .ok (-1, 0, 0)
  | fuel + 1, i =>
    if funcLine ≤ i ∧ 0 < i then
      match gidx lines i with
      | .error e => .error e
      | .ok line =>
        if isBlankStr line then fflLoop lines v funcLine fuel (i - 1)
        else if isCommentStart line then fflLoop lines v funcLine fuel (i - 1)
        else
          match findVarDef v line with
          | none => fflLoop lines v funcLine fuel (i - 1)
          | some (idx0, idx1) =>
            match walkAux (line.toList.drop idx1.toNat) idx1 0 0 with
            | some j => .ok (i, idx0, j)
            | none => .ok (i, idx0, (line.length : Int) - 1)
    else .ok (-1, 0, 0)

/-- findFailingLine: reads `lines[debugLine-1]` (a Go panic when out of
range), extracts the variable name passed to `.Debug(...)` there, and
scans backward for its definition; `(-1, 0, 0)` when nothing is found. -/
def findFailingLine (lines : List String) (funcLine debugLine : Int) :
    Except String (Int × Int × Int) :=
  match gidx lines (debugLine - 1) with
  | .error e => .error e
  | .ok prev =>
    match extractVarName prev with
    | none => .ok (-1, 0, 0)
    | some varName => fflLoop lines varName.toList funcLine (debugLine.toNat + 1) debugLine

/-! ### deleteBlankLinesFromRange (logger.go lines 242-262) -/

/-- Read of `lines[i]` inside the trim loops.  The loops only ever access
indices inside the clamped range `[0, len-1]`, so the default value of
`getD` is never consulted; using it keeps the trims total, matching the
Go code where these accesses cannot panic. -/
def blankAt (lines : List String) (i : Int) : Bool :=
  isBlankStr (lines.getD i.toNat "")

/-- Leading trim loop: `for start <= end && blank(lines[start]) { start++ }`.
The fuel is the exact bound `end + 1 - start` on the number of
increments. -/
def trimLead (lines : List String) : Int → Int → Nat → Int
  | s, _, 0 => s
  | s, e, fuel + 1 =>
    if s ≤ e ∧ blankAt lines s then trimLead lines (s + 1) e fuel else s

/-- Trailing trim loop: `for end >= start && blank(lines[end]) { end-- }`. -/
def trimTrail (lines : List String) : Int → Int → Nat → Int
  | _, e, 0 => e
  | s, e, fuel + 1 =>
    if s ≤ e ∧ blankAt lines e then trimTrail lines s (e - 1) fuel else e

/-- deleteBlankLinesFromRange: clamps the range to `[0, len-1]`, then
strips leading and trailing blank lines. -/
def deleteBlankLinesFromRange (lines : List String) (s e : Int) : Int × Int :=
  let s0 := max s 0
  let e0 := min e ((lines.length : Int) - 1)
  let s1 := trimLead lines s0 e0 (e0 + 1 - s0).toNat
  let e1 := trimTrail lines s1 e0 (e0 + 1 - s1).toNat
  (s1, e1)

/-! ### PrintSource -/

/-- PrintSourceOptions: config for PrintSource.  The `Highlighted` map
`map[int][]int` is modelled as a partial function from line index to
column list. -/
structure PrintSourceOptions where
  funcLine : Int
  startLine : Int
  endLine : Int
  highlighted : Int → Option (List Int)

/-- Function-header part shared by both PrintSource variants: when the
function line sits above the window, print it in red, followed by an
elision marker when it is not adjacent to the window start. -/
def psHead (lines : List String) (opts : PrintSourceOptions) : Except String (List Output) :=
  if opts.funcLine ≠ -1 ∧ opts.funcLine < opts.startLine then
    match gidx lines opts.funcLine with
    | .error e => .error e
    | .ok fl =>
      .ok (Output.funcHeader (opts.funcLine + 1) fl ::
        (if opts.funcLine < opts.startLine - 1 then [Output.ellipsis] else []))
  else .ok []

/-- Body loop shared by both PrintSource variants:
`for i := StartLine; i < EndLine; i++` rendering one output per
iteration.  The fuel is the exact bound `EndLine - StartLine`. -/
def psLoop (render : Int → Except String Output) (endLine : Int) :
    Nat → Int → Except String (List Output)
  | 0, _ => .ok []
  | fuel + 1, i =>
    if i < endLine then
      match render i with
      | .error e => .error e
      | .ok o =>
        match psLoop render endLine fuel (i + 1) with
        | .error e => .error e
        | .ok rest => .ok (o :: rest)
    else .ok []

/-- One iteration of the PrintSource body of logger.go lines 159-180:
a two-element highlight entry has its end clamped to the last column
`len(lines[i])-1` of the line (and a `-1` start means no highlight); any
other entry is skipped and the line prints plain. -/
def renderLine (lines : List String) (hl : Int → Option (List Int)) (i : Int) :
    Except String Output :=
  match gidx lines i with
  | .error e => .error e
  | .ok line =>
    match hl i with
    | some [c0, c1] =>
      let he := if (line.length : Int) - 1 < c1 then (line.length : Int) - 1 else c1
      if c0 = -1 then .ok (.srcLine (i + 1) line)
      else
        match goSubstr line 0 c0 with
        | .error e => .error e
        | .ok pre =>
          match goSubstr line c0 (he + 1) with
          | .error e => .error e
          | .ok mid =>
            match goSubstr line (he + 1) line.length with
            | .error e => .error e
            | .ok post => .ok (.srcLineHl (i + 1) pre mid post)
    | some _ => .ok (.srcLine (i + 1) line)
    | none => .ok (.srcLine (i + 1) line)

/-- PrintSource of logger.go lines 150-181. -/
def printSource (lines : List String) (opts : PrintSourceOptions) :
    Except String (List Output) :=
  match psHead lines opts with
  | .error e => .error e
  | .ok head =>
    match psLoop (renderLine lines opts.highlighted) opts.endLine
        (opts.endLine - opts.startLine).toNat opts.startLine with
    | .error e => .error e
    | .ok body => .ok (head ++ body)

/-- One iteration of the PrintSource body of the current variant
(README-embedded logger, lines 386-395): the highlight start is clamped
below by 0, and the highlight end is clamped by `len(lines)-1` — the
number of lines, not the length of the line. -/
def renderLineCur (lines : List String) (hl : Int → Option (List Int)) (i : Int) :
    Except String Output :=
  match gidx lines i with
  | .error e => .error e
  | .ok line =>
    match hl i with
    | some [c0, c1] =>
      let hs := max c0 0
      let he := min c1 ((lines.length : Int) - 1)
      match goSubstr line 0 hs with
      | .error e => .error e
      | .ok pre =>
        match goSubstr line hs (he + 1) with
        | .error e => .error e
        | .ok mid =>
          match goSubstr line (he + 1) line.length with
          | .error e => .error e
          | .ok post => .ok (.srcLineHl (i + 1) pre mid post)
    | some _ => .ok (.srcLine (i + 1) line)
    | none => .ok (.srcLine (i + 1) line)

/-- PrintSource of the current variant (README-embedded logger, lines
377-396). -/
def printSourceCurrent (lines : List String) (opts : PrintSourceOptions) :
    Except String (List Output) :=
  match psHead lines opts with
  | .error e => .error e
  | .ok head =>
    match psLoop (renderLineCur lines opts.highlighted) opts.endLine
        (opts.endLine - opts.startLine).toNat opts.startLine with
    | .error e => .error e
    | .ok body => .ok (head ++ body)

/-! ### DebugSource (current variant, README-embedded logger lines 327-374) -/

/-- GOPATH stripping of DebugSource:
`strings.Replace(filepath, gopath+"/src/", "", -1)` when GOPATH is set. -/
def shortPath (gopath filepath : String) : String :=
  if gopath ≠ "" then filepath.replace (gopath ++ "/src/") "" else filepath

/-- Result of the window computation of DebugSource: the truncated line
slice, the function line, the (boundary-corrected) start line, the end
line, and the failing-line triple. -/
structure WindowRes where
  lines2 : List String
  funcLine : Int
  startLine : Int
  endLine : Int
  failing : Int × Int × Int
  deriving Repr, DecidableEq

/-- Window computation of DebugSource (current variant lines 341-358):
margins around the target, blank-line trimming with clamping, truncation
`lines[:maxLine+1]`, function-boundary search with start-line correction,
and the failing-line search. -/
def debugSourceOpts (l : LoggerState) (lines : List String) (debugLineNumber : Int) :
    Except String WindowRes :=
  let minLine0 := debugLineNumber - l.config.linesBefore
  let maxLine0 := debugLineNumber + l.config.linesAfter
  let p := deleteBlankLinesFromRange lines minLine0 maxLine0
  match goTake lines (p.2 + 1) with
  | .error e => .error e
  | .ok lines2 =>
    match findFuncLine lines2 debugLineNumber with
    | .error e => .error e
    | .ok funcLine =>
      let minLine := if p.1 < funcLine then funcLine + 1 else p.1
      match findFailingLine lines2 funcLine debugLineNumber with
      | .error e => .error e
      | .ok failing => .ok ⟨lines2, funcLine, minLine, p.2, failing⟩

/-- Collaborator environment of one resolution: the parsed frames of the
current stack snapshot, the source reader (path to file content, `none`
for a read failure), and the GOPATH value. -/
structure Env where
  frames : List StackTraceItem
  files : String → Option String
  gopath : String

/-- DebugSource of the current variant: degrades to an explanatory
message when the reader fails; otherwise computes the window, prints the
failing-line header, and renders the source through PrintSource with the
one-entry highlight map `{failingLineIndex: [columnStart, columnEnd]}`. -/
def debugSource (env : Env) (l : LoggerState) (filepath : String) (debugLineNumber : Int) :
    Except String (List Output) :=
  let filepathShort := shortPath env.gopath filepath
  match env.files filepath with
  | none => .ok [Output.readFail filepath]
  | some content =>
    let lines := splitLines content
    match debugSourceOpts l lines debugLineNumber with
    | .error e => .error e
    | .ok w =>
      let fli := w.failing.1
      let cs := w.failing.2.1
      let ce := w.failing.2.2
      let header := if fli ≠ -1 then Output.lineRef (fli + 1) filepathShort (fli + 1)
                    else Output.lineRefMissing filepathShort debugLineNumber
      match printSourceCurrent w.lines2
          ⟨w.funcLine, w.startLine, w.endLine,
           fun i => if i = fli then some [cs, ce] else none⟩ with
      | .error e => .error e
      | .ok body => .ok (header :: body)

/-! ### Debug (current variant, README-embedded logger lines 288-324) -/

/-- printStack of the current variant (lines 426-436): one line per
frame, outermost first (`for i := len-1; i >= 0; i--`).  The computed
indentation padding is built but never passed to Printf, so the output is
identical whatever `DisableStackIndentation` is. -/
def printStackOut (stLines : List StackTraceItem) : List Output :=
  stLines.reverse.map (fun f => Output.frameLine f.callingObject f.sourcePathRef f.sourceLineRef)

/-- Result of one Debug call: the boolean return value, the logger state
after the call, the printed output, and whether `os.Exit(1)` was
reached. -/
structure DebugOut where
  ret : Bool
  st : LoggerState
  out : List Output
  exited : Bool
  deriving Repr, DecidableEq

/-- Doctor applied to a logger: `l.Doctor()` mutates the configuration
in place and never touches the depth overload. -/
def doctored (l : LoggerState) : LoggerState :=
  { l with config := (doctor l.config).2 }

/-- Output of the full pipeline path of Debug, in emission order: the
optional error summary, then the source rendering, then the optional
stack trace. -/
def debugOutList (l1 : LoggerState) (f0 : StackTraceItem) (rest : List StackTraceItem)
    (msg : String) (srcOut : List Output) : List Output :=
  (if l1.config.printError then [Output.errorIn f0.callingObject msg] else []) ++ srcOut ++
    (if l1.config.printStack then Output.stackHeader :: printStackOut (f0 :: rest) else [])

/-- Debug of the current variant: disabled mode returns `uErr != nil`
untouched; otherwise Doctor runs, a nil error returns false immediately,
an empty parsed stack degrades to two messages, and the full pipeline
prints the error, the source and the stack as configured, exits when
`ExitOnDebugSuccess` is set (before the overload reset, which therefore
never happens on that path), and resets `stackDepthOverload` to 0 on the
normal return only.  On a panic (`Except.error`) the output emitted
before the panic is not modelled. -/
def debug (env : Env) (l : LoggerState) (uErr : Option String) : Except String DebugOut :=
  if l.config.mode = ModeDisabled then .ok ⟨uErr.isSome, l, [], false⟩
  else
    match uErr with
    | none => .ok ⟨false, doctored l, [], false⟩
    | some msg =>
      match parseStackTrace env.frames (1 + (doctored l).stackDepthOverload) with
      | .error e => .error e
      | .ok [] => .ok ⟨true, doctored l, [.errorPlain msg, .emptyStackNotice], false⟩
      | .ok (f0 :: rest) =>
        match (if (doctored l).config.printSource then
                 debugSource env (doctored l) f0.sourcePathRef f0.sourceLineRef
               else .ok []) with
        | .error e => .error e
        | .ok srcOut =>
          if (doctored l).config.exitOnDebugSuccess then
            .ok ⟨true, doctored l, debugOutList (doctored l) f0 rest msg srcOut, true⟩
          else
            .ok ⟨true, { doctored l with stackDepthOverload := 0 },
                 debugOutList (doctored l) f0 rest msg srcOut, false⟩

/-- Overload (current variant lines 444-446): adds depths to remove when
parsing the next stack trace. -/
def overload (l : LoggerState) (amount : Int) : LoggerState :=
  { l with stackDepthOverload := l.stackDepthOverload + amount }

/-! ### Helper lemmas -/

/-- gidx succeeds exactly on in-range indices and returns the element. -/
theorem gidx_ok (xs : List String) (i : Int) (h0 : 0 ≤ i) (hl : i < (xs.length : Int)) :
    gidx xs i = .ok (xs.getD i.toNat "") := by
  have hn : i.toNat < xs.length := by omega
  rw [gidx, dif_pos ⟨h0, hl⟩]
  rw [List.getD_eq_getElem _ _ hn]
  rfl

/-- Doctor never touches the boolean toggles, the mode, or anything but
the print function flag and the margins. -/
theorem doctor_eq (c : Config) :
    doctor c = (!c.printFuncSet || decide (c.linesBefore < 0) || decide (c.linesAfter < 0),
      { c with printFuncSet := true,
               linesBefore := if c.linesBefore < 0 then 0 else c.linesBefore,
               linesAfter := if c.linesAfter < 0 then 0 else c.linesAfter }) := by
  obtain ⟨pf, lb, la, ps, pso, pe, ex, di, m⟩ := c
  cases pf <;> by_cases h2 : lb < 0 <;> by_cases h3 : la < 0 <;>
    simp [doctor, h2, h3]

/-- Doctor never touches the boolean toggles, the mode, or anything but
the print function flag and the margins. -/
theorem doctor_preserves (c : Config) :
    (doctor c).2.exitOnDebugSuccess = c.exitOnDebugSuccess ∧
    (doctor c).2.mode = c.mode ∧
    (doctor c).2.printError = c.printError ∧
    (doctor c).2.printSource = c.printSource ∧
    (doctor c).2.printStack = c.printStack := by
  rw [doctor_eq]
  exact ⟨rfl, rfl, rfl, rfl, rfl⟩

/-! ### C9 -/

/-- C9: Doctor is idempotent — after one Doctor call, an immediately
following call reports `neededDoctor = false` and leaves the
configuration unchanged; consequently every logger built by NewLogger has
a set print function and non-negative margins before its first Debug
call. -/
theorem doctor_idempotent (cfg : Config) :
    (doctor (doctor cfg).2).1 = false ∧
    (doctor (doctor cfg).2).2 = (doctor cfg).2 ∧
    (newLogger cfg).config.printFuncSet = true ∧
    0 ≤ (newLogger cfg).config.linesBefore ∧
    0 ≤ (newLogger cfg).config.linesAfter := by
  obtain ⟨pf, lb, la, ps, pso, pe, ex, di, m⟩ := cfg
  cases pf <;> by_cases h2 : lb < 0 <;> by_cases h3 : la < 0 <;>
    simp [newLogger, doctor, h2, h3] <;> omega

/-! ### C8 -/

/-- C8: the stack parser drops exactly the first `2 + d` raw frame
entries; on a snapshot of exactly `2 + d` discardable entries both the
older `getStackTrace` and the current `parseStackTrace` return the empty
sequence, and the empty result is an ordinary value, not a panic. -/
theorem stack_parser_drop :
    (∀ (d : Int) (entries : List String), 0 ≤ d → 2 + d ≤ (entries.length : Int) →
      getStackTrace entries d = .ok (entries.drop (2 + d).toNat)) ∧
    (∀ (d : Int) (entries : List String), 0 ≤ d → (entries.length : Int) = 2 + d →
      getStackTrace entries d = .ok []) ∧
    (∀ (d : Int) (frames : List StackTraceItem), 0 ≤ d → (frames.length : Int) = 2 + d →
      parseStackTrace frames d = .ok []) := by
  refine ⟨fun d entries hd hlen => ?_, fun d entries hd hlen => ?_, fun d frames hd hlen => ?_⟩
  · rw [getStackTrace, if_neg (by omega)]
  · rw [getStackTrace, if_neg (by omega)]
    have h2 : (2 + d).toNat = entries.length := by omega
    rw [h2, List.drop_length]
  · rw [parseStackTrace, if_neg (by omega), if_neg (by omega)]
    have h2 : (2 + d).toNat = frames.length := by omega
    rw [h2, List.drop_length]

/-- Witness for C8 at `d = 0` and a two-entry snapshot. -/
theorem stack_parser_drop_witness :
    getStackTrace ["a", "b"] 0 = .ok [] :=
  stack_parser_drop.2.1 0 ["a", "b"] (by decide) (by decide)

/-! ### Concrete fixtures -/

/-- Fixture frame. -/
def fr1 : StackTraceItem := ⟨"main.a", [], "f.go", 3, 0⟩

/-- Fixture environment: four parsed frames, a reader that fails on every
path, empty GOPATH. -/
def envBase : Env := ⟨[fr1, fr1, fr1, fr1], fun _ => none, ""⟩

/-- Fixture enabled configuration with all print toggles off. -/
def cfgBase : Config := ⟨true, 2, 1, false, false, false, false, false, ModeEnabled⟩

/-- Fixture disabled configuration. -/
def cfgDis : Config := ⟨true, 2, 1, false, false, false, false, false, ModeDisabled⟩

/-! ### C1 -/

/-- C1: Debug returns true exactly when the input error is non-null, and
a null input returns false with no output, no exit, and the depth
overload untouched (no pipeline stage runs). -/
theorem debug_null_nonnull (env : Env) (l : LoggerState) (uErr : Option String) :
    (∀ r, debug env l uErr = .ok r → (r.ret = true ↔ uErr ≠ none)) ∧
    (∃ r, debug env l none = .ok r ∧ r.ret = false ∧ r.out = [] ∧ r.exited = false ∧
      r.st.stackDepthOverload = l.stackDepthOverload) := by
  constructor
  · intro r h
    rw [debug.eq_def] at h
    split at h
    · cases h
      cases uErr <;> simp
    · split at h
      · cases h
        simp
      · split at h
        · cases h
        · cases h
          simp
        · split at h
          · cases h
          · split at h <;> cases h <;> simp
  · rw [debug.eq_def]
    split
    · exact ⟨_, rfl, rfl, rfl, rfl, rfl⟩
    · exact ⟨_, rfl, rfl, rfl, rfl, rfl⟩

/-- Witness for C1: a null input under the base fixture returns false
with empty output. -/
theorem debug_null_nonnull_witness :
    ∃ r, debug envBase ⟨cfgBase, 0⟩ none = .ok r ∧ r.ret = false ∧ r.out = [] ∧
      r.exited = false ∧ r.st.stackDepthOverload = (0 : Int) :=
  (debug_null_nonnull envBase ⟨cfgBase, 0⟩ none).2

/-! ### C2 -/

/-- C2: in Disabled mode, Debug returns whether the failure is non-null,
emits nothing through the printer, leaves the whole logger state (even
the configuration) untouched, and runs none of the pipeline stages. -/
theorem debug_disabled_noop (env : Env) (l : LoggerState) (uErr : Option String)
    (h : l.config.mode = ModeDisabled) :
    debug env l uErr = .ok ⟨uErr.isSome, l, [], false⟩ := by
  rw [debug.eq_def, if_pos h]

/-- Witness for C2: a non-null failure under the disabled fixture returns
true with no output. -/
theorem debug_disabled_noop_witness :
    debug envBase ⟨cfgDis, 0⟩ (some "boom") = .ok ⟨true, ⟨cfgDis, 0⟩, [], false⟩ :=
  debug_disabled_noop envBase ⟨cfgDis, 0⟩ (some "boom") rfl

/-! ### C3 -/

/-- Counterexample to C3: a Debug call with a null input returns with the
stackDepthOverload left at 1, not reset to 0. -/
theorem overload_not_reset_on_nil :
    (debug envBase ⟨cfgBase, 1⟩ none).map (fun r => (r.ret, r.st.stackDepthOverload)) =
      .ok (false, 1) ∧ (1 : Int) ≠ 0 := by
  exact ⟨rfl, by decide⟩

/-- C3 (amended): Debug resets stackDepthOverload to 0 exactly on the
full-pipeline normal return (enabled mode, non-null input, non-empty
parsed stack, no exit); the null-input and disabled-mode paths leave the
field unchanged. -/
theorem debug_overload_reset (env : Env) (l : LoggerState) (uErr : Option String)
    (r : DebugOut) (h : debug env l uErr = .ok r) :
    (r.exited = false → l.config.mode ≠ ModeDisabled → uErr ≠ none →
      (∀ fr, parseStackTrace env.frames (1 + l.stackDepthOverload) = .ok fr → fr ≠ []) →
      r.st.stackDepthOverload = 0) ∧
    ((uErr = none ∨ l.config.mode = ModeDisabled) → r.st.stackDepthOverload = l.stackDepthOverload) := by
  rw [debug.eq_def] at h
  split at h
  · cases h
    constructor
    · intro _ hmode
      exact absurd (by assumption) hmode
    · intro _
      rfl
  · split at h
    · cases h
      constructor
      · intro _ _ hne
        exact absurd rfl hne
      · intro _
        rfl
    · rename_i msg
      constructor
      · intro hex hmode hne hfr
        split at h
        · cases h
        · cases h
          rename_i heq
          exact absurd (hfr [] heq) (by simp)
        · split at h
          · cases h
          · split at h <;> cases h
            · simp at hex
            · rfl
      · intro hcase
        rcases hcase with hnone | hmode
        · cases hnone
        · exact absurd hmode (by assumption)

/-- Witness for the amended C3: the full pipeline with four parsed frames
and no exit resets the overload to 0. -/
theorem debug_overload_reset_witness :
    (⟨true, ⟨cfgBase, 0⟩, [], false⟩ : DebugOut).st.stackDepthOverload = 0 :=
  (debug_overload_reset envBase ⟨cfgBase, 0⟩ (some "e")
      ⟨true, ⟨cfgBase, 0⟩, [], false⟩ rfl).1 rfl (by decide) (by simp)
    (fun fr hfr => by
      have h6 : fr = [fr1] := Except.ok.inj (hfr.symm.trans rfl)
      rw [h6]
      simp)

/-! ### C4 -/

/-- Counterexample to C4: the pipeline is not panic-free.  With a
readable two-line file whose referenced line 1 is blank, trailing-blank
trimming shrinks the window below the referenced line and the truncated
slice no longer contains it, so findFuncLine indexes out of range — a Go
runtime panic. -/
theorem debugSource_can_panic :
    debugSource ⟨[], fun p => if p = "f.go" then some ("x := f()" ++ "\n") else none, ""⟩
      ⟨⟨true, 1, 0, false, true, false, false, false, ModeEnabled⟩, 0⟩ "f.go" 1 =
      .error "index out of range" := rfl

/-- C4 (amended): when the source reader fails, DebugSource degrades to
the explanatory message and completes normally; and a Debug call reaches
`os.Exit(1)` only when the failure is non-null and ExitOnDebugSuccess is
set.  (The blanket no-panic part of the claim is refuted by
`debugSource_can_panic`.) -/
theorem debug_degrade_and_exit :
    (∀ (env : Env) (l : LoggerState) (path : String) (n : Int), env.files path = none →
      debugSource env l path n = .ok [Output.readFail path]) ∧
    (∀ (env : Env) (l : LoggerState) (uErr : Option String) (r : DebugOut),
      debug env l uErr = .ok r → r.exited = true →
      uErr ≠ none ∧ l.config.exitOnDebugSuccess = true) := by
  constructor
  · intro env l path n hf
    rw [debugSource.eq_def, hf]
  · intro env l uErr r h hex
    rw [debug.eq_def] at h
    split at h
    · cases h
      cases hex
    · split at h
      · cases h
        cases hex
      · constructor
        · simp
        · split at h
          · cases h
          · cases h
            cases hex
          · split at h
            · cases h
            · split at h <;> cases h
              · rename_i hexit
                have hp := (doctor_preserves l.config).1
                simp only [doctored] at hexit
                rw [← hp]
                exact hexit
              · cases hex

/-- Witness for the amended C4: the base fixture reader fails on every
path and DebugSource degrades to the explanatory message. -/
theorem debug_degrade_and_exit_witness :
    debugSource envBase ⟨cfgBase, 0⟩ "g.go" 3 = .ok [Output.readFail "g.go"] :=
  debug_degrade_and_exit.1 envBase ⟨cfgBase, 0⟩ "g.go" 3 rfl

/-! ### C7 -/

/-- C7: the PrintSource body loop is `for i := StartLine; i < EndLine;
i++`, so the line at the inclusive window end `EndLine` is never
rendered: on a two-line window `[0, 1]` only line 1 (1-based) is printed,
although the window end was trimmed to a displayable non-blank line and
the package documentation shows the window end rendered. -/
theorem printSource_skips_endLine :
    printSource ["a", "b"] ⟨-1, 0, 1, fun _ => none⟩ = .ok [Output.srcLine 1 "a"] := rfl

/-! ### C6 -/

/-- Counterexample to C6: on the exact source of the claim the locator
examines `lines[debugLine-1] = "  x := g()"`, which contains no
`.Debug(` call, so no identifier can be extracted and the not-found
sentinel `-1` is returned instead of the claimed `lineIndex = 1`. -/
theorem findFailingLine_claim_input :
    findFailingLine ["func f() \x7b", "  x := g()", "  h(x)", "\x7d"] 0 2 = .ok (-1, 0, 0) ∧
    (-1 : Int) ≠ 1 := ⟨rfl, by decide⟩

/-- C6 (amended): when no identifier can be extracted from the examined
line, findFailingLine returns the sentinel `(-1, 0, 0)`; and on the
claimed source with the failure-reporting call written in the recognized
`.Debug(x)` form and the call site given as the 1-based line 3,
findFailingLine locates the definition at lineIndex 1 with the column
span `[2, 9]` covering the whole `x := g()` assignment including the
`g()` call. -/
theorem findFailingLine_locates :
    (∀ (lines : List String) (funcLine t : Int) (prev : String),
      gidx lines (t - 1) = .ok prev → extractVarName prev = none →
      findFailingLine lines funcLine t = .ok (-1, 0, 0)) ∧
    findFailingLine ["func f() \x7b", "  x := g()", "  errlog.Debug(x)", "\x7d"] 0 3 =
      .ok (1, 2, 9) := by
  constructor
  · intro lines funcLine t prev h1 h2
    simp only [findFailingLine, h1, h2]
  · rfl

/-- Witness for the amended C6: a single-line file whose examined line
has no `.Debug(` call yields the sentinel. -/
theorem findFailingLine_locates_witness :
    findFailingLine ["y"] 0 1 = .ok (-1, 0, 0) :=
  findFailingLine_locates.1 ["y"] 0 1 "y" rfl rfl

/-! ### C10 -/

/-- goSubstr from the start of the string is a prefix. -/
theorem goSubstr_zero (s : String) (b : Int) (h0 : 0 ≤ b) (hb : b ≤ (s.length : Int)) :
    goSubstr s 0 b = .ok (strTakeI s b) := by
  rw [goSubstr, if_pos ⟨le_refl 0, h0, hb⟩, strTakeI]
  simp

/-- goSubstr up to the length of the string is a suffix. -/
theorem goSubstr_to_end (s : String) (a : Int) (h0 : 0 ≤ a) (ha : a ≤ (s.length : Int)) :
    goSubstr s a (s.length : Int) = .ok (strDropI s a) := by
  rw [goSubstr, if_pos ⟨h0, ha, le_refl _⟩, strDropI]
  have hlen : s.toList.length = s.length := rfl
  congr 1
  congr 1
  apply List.take_of_length_le
  rw [List.length_drop]
  omega

/-- goSubstr of the empty final slice. -/
theorem goSubstr_nil (s : String) :
    goSubstr s (s.length : Int) (s.length : Int) = .ok "" := by
  rw [goSubstr, if_pos ⟨by positivity, le_refl _, le_refl _⟩]
  have h1 : ((s.length : Int) - (s.length : Int)).toNat = 0 := by omega
  rw [h1]
  simp

/-- Everything rendered by an iteration of the PrintSource body loop is
in the loop's output. -/
theorem psLoop_mem (render : Int → Except String Output) (e : Int) :
    ∀ (fuel : Nat) (i : Int) (out : List Output), psLoop render e fuel i = .ok out →
      ∀ (j : Int), i ≤ j → j < e → (e - i).toNat ≤ fuel →
      ∀ o, render j = .ok o → o ∈ out := by
  intro fuel
  induction fuel with
  | zero =>
    intro i out h j hij hje hf o ho
    exfalso
    omega
  | succ n ih =>
    intro i out h j hij hje hf o ho
    have hie : i < e := lt_of_le_of_lt hij hje
    rw [psLoop, if_pos hie] at h
    split at h
    · cases h
    · rename_i o1 ho1
      split at h
      · cases h
      · rename_i rest hrest
        cases h
        rcases eq_or_lt_of_le hij with rfl | hlt
        · have : o = o1 := Except.ok.inj (ho.symm.trans ho1)
          rw [this]
          exact List.mem_cons_self _ _
        · exact List.mem_cons_of_mem _
            (ih (i + 1) rest hrest j (by omega) hje (by omega) o ho)

/-- C10: in PrintSource, a two-element highlight span whose end exceeds
the last column of the highlighted line is rendered clamped to the last
column (the highlighted part is the whole suffix from columnStart, with
nothing after it), and a highlight entry that is not exactly a
two-element list leaves the line rendered plain instead of failing. -/
theorem printSource_highlight (lines : List String) (opts : PrintSourceOptions)
    (out : List Output) (i : Int) (line : String)
    (hps : printSource lines opts = .ok out)
    (h1 : opts.startLine ≤ i) (h2 : i < opts.endLine)
    (hline : gidx lines i = .ok line) :
    (∀ c0 c1 : Int, opts.highlighted i = some [c0, c1] → 0 ≤ c0 →
      c0 ≤ (line.length : Int) → (line.length : Int) - 1 < c1 →
      Output.srcLineHl (i + 1) (strTakeI line c0) (strDropI line c0) "" ∈ out) ∧
    (∀ v : List Int, opts.highlighted i = some v → v.length ≠ 2 →
      Output.srcLine (i + 1) line ∈ out) := by
  rw [printSource] at hps
  split at hps
  · cases hps
  rename_i head hhead
  split at hps
  · cases hps
  rename_i body hbody
  cases hps
  constructor
  · intro c0 c1 hhl hc0 hc0le hc1
    have hr : renderLine lines opts.highlighted i =
        .ok (Output.srcLineHl (i + 1) (strTakeI line c0) (strDropI line c0) "") := by
      have hsum : (line.length : Int) - 1 + 1 = (line.length : Int) := by omega
      simp only [renderLine, hline, hhl, if_pos hc1]
      rw [if_neg (by omega : ¬ c0 = -1), goSubstr_zero line c0 hc0 hc0le, hsum,
        goSubstr_to_end line c0 hc0 hc0le, goSubstr_nil]
    exact List.mem_append_right _
      (psLoop_mem _ _ _ _ _ hbody i h1 h2 (by omega) _ hr)
  · intro v hhl hv
    have hr : renderLine lines opts.highlighted i = .ok (Output.srcLine (i + 1) line) := by
      rcases v with _ | ⟨a, _ | ⟨b, _ | ⟨c, v⟩⟩⟩
      · simp only [renderLine, hline, hhl]
      · simp only [renderLine, hline, hhl]
      · exact absurd rfl hv
      · simp only [renderLine, hline, hhl]
    exact List.mem_append_right _
      (psLoop_mem _ _ _ _ _ hbody i h1 h2 (by omega) _ hr)

/-- Fixture options for the C10 witness: one highlighted line with a span
end beyond the line length. -/
def opts10 : PrintSourceOptions :=
  ⟨-1, 0, 1, fun i => if i = 0 then some [0, 5] else none⟩

/-- Witness for C10: on the two-character line "ab" a span `[0, 5]` is
clamped so the whole line is highlighted and nothing follows. -/
theorem printSource_highlight_witness :
    Output.srcLineHl (0 + 1) (strTakeI "ab" 0) (strDropI "ab" 0) "" ∈
      [Output.srcLineHl 1 "" "ab" ""] :=
  (printSource_highlight ["ab"] opts10 [Output.srcLineHl 1 "" "ab" ""] 0 "ab" rfl
      (by decide) (by decide) rfl).1 0 5 rfl (by decide) (by decide) (by decide)

/-! ### C5 -/

/-- Leading trim never moves the start below its input. -/
theorem trimLead_ge (lines : List String) :
    ∀ (fuel : Nat) (s e : Int), s ≤ trimLead lines s e fuel := by
  intro fuel
  induction fuel with
  | zero => intro s e; simp only [trimLead]; exact le_refl s
  | succ n ih =>
    intro s e
    simp only [trimLead]
    split
    · exact le_trans (by omega) (ih (s + 1) e)
    · exact le_refl s

/-- Leading trim never passes a non-blank index at or after the start. -/
theorem trimLead_le (lines : List String) :
    ∀ (fuel : Nat) (s e k : Int), s ≤ k → blankAt lines k = false →
      trimLead lines s e fuel ≤ k := by
  intro fuel
  induction fuel with
  | zero => intro s e k hsk _; simp only [trimLead]; exact hsk
  | succ n ih =>
    intro s e k hsk hk
    simp only [trimLead]
    split
    · rename_i hcond
      have hne : s ≠ k := by
        intro heq
        rw [heq] at hcond
        rw [hcond.2] at hk
        cases hk
      exact ih (s + 1) e k (by omega) hk
    · exact hsk

/-- Trailing trim never moves the end above its input. -/
theorem trimTrail_le (lines : List String) :
    ∀ (fuel : Nat) (s e : Int), trimTrail lines s e fuel ≤ e := by
  intro fuel
  induction fuel with
  | zero => intro s e; simp only [trimTrail]; exact le_refl e
  | succ n ih =>
    intro s e
    simp only [trimTrail]
    split
    · exact le_trans (ih s (e - 1)) (by omega)
    · exact le_refl e

/-- Trailing trim never passes a non-blank index between the bounds. -/
theorem trimTrail_ge (lines : List String) :
    ∀ (fuel : Nat) (s e k : Int), s ≤ k → k ≤ e → blankAt lines k = false →
      k ≤ trimTrail lines s e fuel := by
  intro fuel
  induction fuel with
  | zero => intro s e k _ hke _; simp only [trimTrail]; exact hke
  | succ n ih =>
    intro s e k hsk hke hk
    simp only [trimTrail]
    split
    · rename_i hcond
      have hne : e ≠ k := by
        intro heq
        rw [heq] at hcond
        rw [hcond.2] at hk
        cases hk
      exact ih s (e - 1) k hsk (by omega) hk
    · exact hke

/-- The clamped and trimmed range still brackets any in-range non-blank
target line. -/
theorem deleteBlank_bounds (lines : List String) (s e t : Int)
    (hs : s ≤ t) (he : t ≤ e) (ht0 : 0 ≤ t) (htL : t < (lines.length : Int))
    (hnb : blankAt lines t = false) :
    0 ≤ (deleteBlankLinesFromRange lines s e).1 ∧
    (deleteBlankLinesFromRange lines s e).1 ≤ t ∧
    t ≤ (deleteBlankLinesFromRange lines s e).2 ∧
    (deleteBlankLinesFromRange lines s e).2 ≤ (lines.length : Int) - 1 := by
  simp only [deleteBlankLinesFromRange]
  have hs0t : max s 0 ≤ t := max_le hs ht0
  have he0t : t ≤ min e ((lines.length : Int) - 1) := le_min he (by omega)
  have hlead : trimLead lines (max s 0) (min e ((lines.length : Int) - 1))
      (min e ((lines.length : Int) - 1) + 1 - max s 0).toNat ≤ t :=
    trimLead_le lines _ _ _ t hs0t hnb
  refine ⟨?_, hlead, ?_, ?_⟩
  · exact le_trans (le_max_right s 0) (trimLead_ge lines _ _ _)
  · exact trimTrail_ge lines _ _ _ t hlead he0t hnb
  · exact le_trans (trimTrail_le lines _ _ _) (min_le_right _ _)

/-- goTake succeeds on an in-range bound. -/
theorem goTake_ok (xs : List String) (k : Int) (h0 : 0 ≤ k) (hk : k ≤ (xs.length : Int)) :
    goTake xs k = .ok (xs.take k.toNat) := by
  rw [goTake, if_pos ⟨h0, hk⟩]

/-- getD commutes with take below the bound. -/
theorem getD_take (xs : List String) (n m : Nat) (h : m < n) :
    (xs.take n).getD m "" = xs.getD m "" := by
  rw [List.getD_eq_getElem?_getD, List.getD_eq_getElem?_getD, List.getElem?_take_of_lt h]

/-- The findFuncLine scan succeeds on an in-range start index and its
result stays at or below the start, strictly below when the start line
itself is not a function-declaration line. -/
theorem findFuncLineAux_ok (lines : List String) :
    ∀ n : Nat, (n : Int) < (lines.length : Int) →
      ∃ r, findFuncLineAux lines n = .ok r ∧ -1 ≤ r ∧ r ≤ (n : Int) ∧
        (isFuncLine (lines.getD n "") = false → r ≤ (n : Int) - 1) := by
  intro n
  induction n with
  | zero =>
    intro _
    exact ⟨-1, rfl, le_refl _, by omega, fun _ => by omega⟩
  | succ m ih =>
    intro h
    have hg : gidx lines ((m + 1 : Nat) : Int) = .ok (lines.getD (m + 1) "") := by
      have h2 := gidx_ok lines ((m + 1 : Nat) : Int) (by omega) h
      rwa [Int.toNat_natCast] at h2
    simp only [findFuncLineAux, hg]
    by_cases hf : isFuncLine (lines.getD (m + 1) "") = true
    · rw [if_pos hf]
      exact ⟨((m + 1 : Nat) : Int), rfl, by omega, le_refl _,
        fun hff => absurd hf (by rw [hff]; simp)⟩
    · rw [if_neg hf]
      obtain ⟨r, hr, h1, h2, _⟩ := ih (by push_cast at h ⊢; omega)
      exact ⟨r, hr, h1, by push_cast at h2 ⊢; omega,
        fun _ => by push_cast at h2 ⊢; omega⟩

/-- findFuncLine succeeds for any target inside the slice. -/
theorem findFuncLine_ok (lines : List String) (t : Int) (h1 : 1 ≤ t)
    (h2 : t < (lines.length : Int)) :
    ∃ r, findFuncLine lines t = .ok r ∧ -1 ≤ r ∧ r ≤ t ∧
      (isFuncLine (lines.getD t.toNat "") = false → r ≤ t - 1) := by
  rw [findFuncLine, if_neg (by omega)]
  have hcast : ((t.toNat : Nat) : Int) = t := by omega
  obtain ⟨r, hr, ha, hb, hc⟩ := findFuncLineAux_ok lines t.toNat (by rw [hcast]; exact h2)
  exact ⟨r, hr, ha, by omega, fun hf => by have h3 := hc hf; omega⟩

/-- The findFailingLine backward scan cannot panic when started inside
the slice. -/
theorem fflLoop_ok (lines : List String) (v : List Char) (fl : Int) :
    ∀ (fuel : Nat) (i : Int), i < (lines.length : Int) →
      ∃ res, fflLoop lines v fl fuel i = .ok res := by
  intro fuel
  induction fuel with
  | zero => intro i _; exact ⟨(-1, 0, 0), rfl⟩
  | succ n ih =>
    intro i h
    simp only [fflLoop]
    split
    · rename_i hcond
      simp only [gidx_ok lines i (by omega) h]
      split
      · exact ih (i - 1) (by omega)
      · split
        · exact ih (i - 1) (by omega)
        · split
          · exact ih (i - 1) (by omega)
          · split
            · exact ⟨_, rfl⟩
            · exact ⟨_, rfl⟩
    · exact ⟨_, rfl⟩

/-- findFailingLine succeeds for any 1-based target line inside the
slice. -/
theorem findFailingLine_ok (lines : List String) (fl t : Int) (h1 : 1 ≤ t)
    (h2 : t < (lines.length : Int)) :
    ∃ res, findFailingLine lines fl t = .ok res := by
  have hg : gidx lines (t - 1) = .ok (lines.getD (t - 1).toNat "") :=
    gidx_ok lines (t - 1) (by omega) (by omega)
  simp only [findFailingLine, hg]
  cases hev : extractVarName (lines.getD (t - 1).toNat "") with
  | none => exact ⟨_, rfl⟩
  | some v => exact fflLoop_ok lines v.toList fl (t.toNat + 1) t h2

/-- Counterexample to C5: margins 0/0 around the blank target line 1 of
the file `["a := f()", "", "b"]` produce the window `[2, 1]` — the start
line exceeds both the target and the end line, refuting
`0 ≤ startLine ≤ t ≤ endLine ≤ L-1`. -/
theorem window_bounds_counterexample :
    (debugSourceOpts ⟨⟨true, 0, 0, false, false, false, false, false, ModeEnabled⟩, 0⟩
        ["a := f()", "", "b"] 1).map (fun w => (w.startLine, w.endLine)) =
      .ok (2, 1) ∧ ¬((2 : Int) ≤ 1) := ⟨rfl, by decide⟩

/-- C5 (amended): for non-negative margins and a target line `t` with
`1 ≤ t ≤ L-1` whose line is neither blank nor itself a
function-declaration line, the window computed by DebugSource exists (no
panic) and satisfies `0 ≤ startLine ≤ t ≤ endLine ≤ L-1`.  (A blank
target line refutes the unconditional claim, see
`window_bounds_counterexample`; a target at line 0 or a target line that
is a function declaration can also break it.) -/
theorem debugSource_window_bounds (l : LoggerState) (lines : List String) (t : Int)
    (hb : 0 ≤ l.config.linesBefore) (ha : 0 ≤ l.config.linesAfter)
    (ht1 : 1 ≤ t) (ht2 : t < (lines.length : Int))
    (hnb : isBlankStr (lines.getD t.toNat "") = false)
    (hnf : isFuncLine (lines.getD t.toNat "") = false) :
    ∃ w, debugSourceOpts l lines t = .ok w ∧
      0 ≤ w.startLine ∧ w.startLine ≤ t ∧ t ≤ w.endLine ∧
      w.endLine ≤ (lines.length : Int) - 1 := by
  have hblank : blankAt lines t = false := by rw [blankAt]; exact hnb
  obtain ⟨h0s, hst, hte, heL⟩ := deleteBlank_bounds lines (t - l.config.linesBefore)
    (t + l.config.linesAfter) t (by omega) (by omega) (by omega) ht2 hblank
  set p := deleteBlankLinesFromRange lines (t - l.config.linesBefore)
    (t + l.config.linesAfter) with hp
  have htake : goTake lines (p.2 + 1) = .ok (lines.take (p.2 + 1).toNat) :=
    goTake_ok lines (p.2 + 1) (by omega) (by omega)
  set lines2 := lines.take (p.2 + 1).toNat with hl2
  have hlen2 : (lines2.length : Int) = p.2 + 1 := by
    rw [hl2, List.length_take]
    push_cast
    omega
  have ht2' : t < (lines2.length : Int) := by omega
  have hgetD : lines2.getD t.toNat "" = lines.getD t.toNat "" := by
    rw [hl2]
    exact getD_take lines _ _ (by omega)
  obtain ⟨fl, hfl, hflm1, hflt, hfllt⟩ := findFuncLine_ok lines2 t ht1 ht2'
  have hflt1 : fl ≤ t - 1 := hfllt (by rw [hgetD]; exact hnf)
  obtain ⟨res, hres⟩ := findFailingLine_ok lines2 fl t ht1 ht2'
  refine ⟨⟨lines2, fl, if p.1 < fl then fl + 1 else p.1, p.2, res⟩, ?_, ?_, ?_, hte, heL⟩
  · simp only [debugSourceOpts, ← hp, htake, ← hl2, hfl, hres]
  · show (0 : Int) ≤ if p.1 < fl then fl + 1 else p.1
    split_ifs <;> omega
  · show (if p.1 < fl then fl + 1 else p.1) ≤ t
    split_ifs <;> omega

/-- Fixture source for the C5 witness. -/
def lines5 : List String := ["func f() \x7b", "  x := g()", "  errlog.Debug(x)", "\x7d"]

/-- Witness for the amended C5 on the fixture source at target line 2
with margins 2/1. -/
theorem debugSource_window_bounds_witness :
    ∃ w, debugSourceOpts ⟨cfgBase, 0⟩ lines5 2 = .ok w ∧
      0 ≤ w.startLine ∧ w.startLine ≤ 2 ∧ 2 ≤ w.endLine ∧
      w.endLine ≤ (lines5.length : Int) - 1 :=
  debugSource_window_bounds ⟨cfgBase, 0⟩ lines5 2 (by decide) (by decide) (by decide)
    (by decide) (by decide) (by decide)

end Errlog
